import Mathlib

/-!
Shallow embedding of the morass_web_rust simulation core (`src/web.rs`).

Modelling conventions:
* `f64` charges and parameters become `ℚ`; the claims under study are about
  the exact update formulas, not floating-point rounding.
* `Arc<RwLock<Node>>` sharing becomes an arena: the web stores a list of
  nodes, and an edge stores the 0-based indices of its endpoints
  (`nodes.get(pair.0)` in the source).  Node ids are 1-based, so
  `node.id - 1` is the index used for the per-node auxiliary vectors,
  exactly as in the source (`self.node_temp_charges[node.id-1]`).
* `rand::random` is modelled by an explicit oracle `Rng` carrying one stream
  of `usize` draws and one stream of `f64` draws, each consumed in call
  order via a position counter.
* The `HashSet<(usize, usize)>` of pairs becomes a duplicate-free list in
  insertion order; `insertPair` is a no-op when the pair is already present,
  matching `HashSet::insert`.
* Rayon parallel phases are linearized: within a phase every work item
  touches only its own record plus commutative accumulators, so the
  sequential left-to-right fold is one of the admissible schedules.
* The retry loops are written with explicit fuel.  In `findUniquePair` the
  source loop exits as soon as the incremented `tries` exceeds 1000 unless
  the freshly drawn pair is accepted, so recursion only happens while
  `tries + 1 <= 1000`; fuel `1002` therefore strictly dominates every
  possible iteration count and the fuel-0 branch is unreachable.  In
  `growLoop` the fuel equals `max_tries - tries`, which is exactly the
  number of remaining iterations the `while tries < max_tries` loop can
  perform, so the fuel-0 branch coincides with the loop guard failing.
-/

set_option autoImplicit false

namespace Morass

/-- Random oracle standing for `rand::random`: a stream of `usize` draws and
a stream of `f64` draws (as rationals), with positions consumed in order. -/
structure Rng where
  usizes : Nat → Nat
  floats : Nat → ℚ
  uPos : Nat
  fPos : Nat

def nextUsize (r : Rng) : Nat × Rng :=
  (r.usizes r.uPos, { r with uPos := r.uPos + 1 })

def nextFloat (r : Rng) : ℚ × Rng :=
  (r.floats r.fPos, { r with fPos := r.fPos + 1 })

/-- `struct Node` of `web.rs`. -/
structure Node where
  id : Nat
  threshold : ℚ
  charge : ℚ
  cooldown : Nat
  cooldown_remaining : Nat
  since_last_fire : Nat
  charge_consumption_percentage : ℚ
  charge_consumption_fixed : ℚ
  decay_percentage : ℚ
  decay_fixed : ℚ
deriving DecidableEq

/-- `struct Edge` of `web.rs`; `start_node` and `end_node` are 0-based
indices into the node arena (the source holds `Arc` references obtained
from `nodes.get(index)`). -/
structure Edge where
  out_percentage : ℚ
  out_fixed : ℚ
  edge_health : Nat
  last_fire : Nat
  fire_within : Nat
  end_node_fire_within : Nat
  start_node : Nat
  end_node : Nat
deriving DecidableEq

/-- Default node used for out-of-range `getD` reads (the source would panic
on an out-of-range index; no reachable claim input is out of range). -/
def defaultNode : Node :=
  { id := 0, threshold := 0, charge := 0, cooldown := 0, cooldown_remaining := 0,
    since_last_fire := 0, charge_consumption_percentage := 0,
    charge_consumption_fixed := 0, decay_percentage := 0, decay_fixed := 0 }

def defaultEdge : Edge :=
  { out_percentage := 0, out_fixed := 0, edge_health := 0, last_fire := 0,
    fire_within := 1, end_node_fire_within := 1, start_node := 0, end_node := 0 }

/-- `struct MorassWeb` of `web.rs`. -/
structure MorassWeb where
  nodes : List Node
  edges : List Edge
  node_temp_charges : List ℚ
  node_last_fired : List Nat
  pairs : List (Nat × Nat)
  op_counter : Nat
  edges_added_counter : Nat
deriving DecidableEq

/-- `HashSet::insert`: add the pair unless it is already present. -/
def insertPair (pairs : List (Nat × Nat)) (p : Nat × Nat) : List (Nat × Nat) :=
  if pairs.contains p then pairs else pairs ++ [p]

/-- Node construction inside the `for n in 0..num_nodes` loop of
`make_random_web`; field order follows the draw order of the source. -/
def buildNode (n : Nat) (rng : Rng) : Node × Rng :=
  let (t, rng) := nextFloat rng
  let (c, rng) := nextFloat rng
  let (cd, rng) := nextUsize rng
  let (cp, rng) := nextFloat rng
  let (cf, rng) := nextFloat rng
  let (dp, rng) := nextFloat rng
  let (df, rng) := nextFloat rng
  ({ id := n + 1, threshold := t * 10, charge := c * 5, cooldown := cd % 5 + 1,
     cooldown_remaining := 0, since_last_fire := 0,
     charge_consumption_percentage := cp * 20, charge_consumption_fixed := cf * 3,
     decay_percentage := dp * (1 / 20), decay_fixed := df * (1 / 5) }, rng)

/-- Builds nodes `start, start+1, ...` (`count` of them) in order. -/
def buildNodesAux : Nat → Nat → Rng → List Node × Rng
  | 0, _start, rng => ([], rng)
  | count + 1, start, rng =>
    let r := buildNode start rng
    let rest := buildNodesAux count (start + 1) r.2
    (r.1 :: rest.1, rest.2)

/-- The inner `loop` of `make_random_web` searching for one fresh pair:
increments `tries`, draws a candidate, accepts it if the endpoints differ
and neither orientation is present, and otherwise gives up once the
incremented `tries` exceeds 1000 (`none` models the early `return`).
Recursion only happens when the incremented `tries` is at most 1000, so
any fuel of at least 1002 makes the fuel-0 branch unreachable. -/
def findUniquePair (num_nodes : Nat) (pairs : List (Nat × Nat)) :
    Nat → Nat → Rng → Option (Nat × Nat) × Nat × Rng
  | 0, tries, rng => (none, tries, rng)
  | fuel + 1, tries, rng =>
    let t := tries + 1
    let (a, rng1) := nextUsize rng
    let (b, rng2) := nextUsize rng1
    let ret : Nat × Nat := (a % num_nodes, b % num_nodes)
    if ret.1 != ret.2 && !(pairs.contains ret) && !(pairs.contains (ret.2, ret.1)) then
      (some ret, t, rng2)
    else if 1000 < t then
      (none, t, rng2)
    else
      findUniquePair num_nodes pairs fuel t rng2

/-- The `for _ in 0..num_edges` loop of `make_random_web`; the `Bool`
result records whether the retry budget was exhausted (the early-return
path of the source). -/
def buildPairs (num_nodes : Nat) :
    Nat → List (Nat × Nat) → Nat → Rng → List (Nat × Nat) × Bool × Nat × Rng
  | 0, pairs, tries, rng => (pairs, false, tries, rng)
  | k + 1, pairs, tries, rng =>
    match findUniquePair num_nodes pairs 1002 tries rng with
    | (some p, tries1, rng1) => buildPairs num_nodes k (insertPair pairs p) tries1 rng1
    | (none, tries1, rng1) => (pairs, true, tries1, rng1)

/-- `MorassWeb::default_edge`; the node `Arc` arguments become endpoint
indices, and the two `random::<f64>()` draws are taken in source order. -/
def default_edge (start_node end_node : Nat) (rng : Rng) : Edge × Rng :=
  let (op, rng1) := nextFloat rng
  let (om, rng2) := nextFloat rng1
  ({ out_percentage := op, out_fixed := om * 5, edge_health := 3, last_fire := 0,
     fire_within := 5, end_node_fire_within := 3,
     start_node := start_node, end_node := end_node }, rng2)

/-- Edge construction loop of `make_random_web` over the found pairs. -/
def buildEdgesFromPairs : List (Nat × Nat) → Rng → List Edge × Rng
  | [], rng => ([], rng)
  | p :: rest, rng =>
    let r := default_edge p.1 p.2 rng
    let es := buildEdgesFromPairs rest r.2
    (r.1 :: es.1, es.2)

/-- `MorassWeb::make_random_web`.  Note the early-return path of the source:
when the pair search exhausts its budget, the web is returned before the
edge-construction loop runs, so its edge list is empty. -/
def make_random_web (num_nodes num_edges : Nat) (rng : Rng) : MorassWeb :=
  let bn := buildNodesAux num_nodes 0 rng
  let tc : List ℚ := List.replicate num_nodes 0
  let lf : List Nat := List.replicate num_nodes 0
  let bp := buildPairs num_nodes num_edges [] 0 bn.2
  if bp.2.1 then
    { nodes := bn.1, edges := [], node_temp_charges := tc, node_last_fired := lf,
      pairs := bp.1, op_counter := 0, edges_added_counter := 0 }
  else
    let be := buildEdgesFromPairs bp.1 bp.2.2.2
    { nodes := bn.1, edges := be.1, node_temp_charges := tc, node_last_fired := lf,
      pairs := bp.1, op_counter := 0, edges_added_counter := 0 }

/-- The pulse value computed in `MorassWeb::pulse`:
`charge >= threshold ? charge * out_percentage + out_fixed : 0`. -/
def pulseValue (nodes : List Node) (e : Edge) : ℚ :=
  let sn := nodes.getD e.start_node defaultNode
  if sn.threshold ≤ sn.charge then sn.charge * e.out_percentage + e.out_fixed else 0

/-- `MorassWeb::pulse`.  Returns the fired flag together with the updated
temp-charge vector, last-fired vector and edge.  Faithful quirks of the
source: when the pulse is positive it is added to the temp charge of the
START node as well as the end node, both last-fired cells are zeroed, and
no field of any `Node` is ever written (in particular `cooldown_remaining`
and `since_last_fire` are untouched). -/
def pulse (nodes : List Node) (tc : List ℚ) (lf : List Nat) (e : Edge) :
    Bool × List ℚ × List Nat × Edge :=
  let sn := nodes.getD e.start_node defaultNode
  if 0 < sn.cooldown_remaining then
    (false, tc, lf, e)
  else
    let en := nodes.getD e.end_node defaultNode
    let p := pulseValue nodes e
    if 0 < p then
      let tc1 := tc.set (sn.id - 1) (tc.getD (sn.id - 1) 0 + p)
      let tc2 := tc1.set (en.id - 1) (tc1.getD (en.id - 1) 0 + p)
      let lf1 := (lf.set (sn.id - 1) 0).set (en.id - 1) 0
      (true, tc2, lf1, { e with last_fire := 0 })
    else
      (false, tc, lf, { e with last_fire := e.last_fire + 1 })

/-- The propagate phase of `step`: fold `pulse` over the edges, counting
fired edges (the `par_iter().map(...).sum()` of the source; all updates
commute, so the left fold is one admissible schedule). -/
def stepPulses (nodes : List Node) :
    List Edge → List ℚ → List Nat → Nat → List Edge × List ℚ × List Nat × Nat
  | [], tc, lf, fires => ([], tc, lf, fires)
  | e :: es, tc, lf, fires =>
    let r := pulse nodes tc lf e
    let rest := stepPulses nodes es r.2.1 r.2.2.1 (fires + if r.1 then 1 else 0)
    (r.2.2.2 :: rest.1, rest.2)

/-- `MorassWeb::subtract_charge` (the consume phase). -/
def subtract_charge (n : Node) : Node :=
  if n.cooldown_remaining ≤ 0 then
    if n.threshold ≤ n.charge then
      { n with charge := n.charge - n.charge * n.charge_consumption_percentage
                           - n.charge_consumption_fixed }
    else n
  else n

/-- `MorassWeb::decay`. -/
def decay (n : Node) : Node :=
  { n with charge := n.charge - n.charge * n.decay_percentage - n.decay_fixed }

/-- `MorassWeb::assimilate`: drain the node's temp-charge cell into its
charge. -/
def assimilate (tc : List ℚ) (n : Node) : Node × List ℚ :=
  ({ n with charge := tc.getD (n.id - 1) 0 + n.charge }, tc.set (n.id - 1) 0)

/-- `MorassWeb::cooldown_step`. -/
def cooldown_step (n : Node) : Node :=
  if 0 < n.cooldown_remaining then
    { n with cooldown_remaining := n.cooldown_remaining - 1 }
  else n

/-- Per-node phase of `step`: consume, decay, assimilate, cooldown for each
node in turn, threading the temp-charge vector (each node only touches its
own cell). -/
def stepNodes : List Node → List ℚ → List Node × List ℚ
  | [], tc => ([], tc)
  | n :: ns, tc =>
    let n1 := subtract_charge n
    let n2 := decay n1
    let a := assimilate tc n2
    let n4 := cooldown_step a.1
    let rest := stepNodes ns a.2
    (n4 :: rest.1, rest.2)

/-- `MorassWeb::penalise`: each of the two staleness conditions decrements
`edge_health` through `max(edge_health, 1) - 1`. -/
def penalise (nodes : List Node) (e : Edge) : Edge :=
  let en := nodes.getD e.end_node defaultNode
  let h1 := if en.since_last_fire = e.end_node_fire_within
            then max e.edge_health 1 - 1 else e.edge_health
  let h2 := if e.last_fire % e.fire_within = e.fire_within - 1
            then max h1 1 - 1 else h1
  { e with edge_health := h2 }

/-- `MorassWeb::step` (the `verbose` flag only gates printing in the source
and never affects state, so it is omitted).  Phase order as in the source:
pulses, per-node dynamics, penalise, the cooldown-based retain over the
pair set, then the health-based retain over the edges. -/
def step (w : MorassWeb) : MorassWeb :=
  let pr := stepPulses w.nodes w.edges w.node_temp_charges w.node_last_fired 0
  let sn := stepNodes w.nodes pr.2.1
  let edges2 := pr.1.map (penalise sn.1)
  let pairs1 := w.pairs.filter (fun p =>
    decide ((sn.1.getD p.1 defaultNode).cooldown_remaining ≤ 0) &&
    decide ((sn.1.getD p.2 defaultNode).cooldown_remaining ≤ 0))
  let edges3 := edges2.filter (fun e => decide (0 < e.edge_health))
  { nodes := sn.1, edges := edges3, node_temp_charges := sn.2,
    node_last_fired := pr.2.2.1, pairs := pairs1,
    op_counter := w.op_counter + pr.2.2.2,
    edges_added_counter := w.edges_added_counter }

/-- `MorassWeb::inject_node_index`. -/
def inject_node_index (w : MorassWeb) (index : Nat) (input : ℚ) : MorassWeb :=
  let n := w.nodes.getD index defaultNode
  { w with nodes := w.nodes.set index { n with charge := n.charge + input } }

/-- Out-degree tally of `add_edges_to_random_node`:
`arr_count[edge.start_node.id - 1] += 1` over all edges. -/
def outDegreeCounts (w : MorassWeb) : List Nat :=
  w.edges.foldl
    (fun acc e =>
      let i := (w.nodes.getD e.start_node defaultNode).id - 1
      acc.set i (acc.getD i 0 + 1))
    (List.replicate w.nodes.length 0)

/-- The `for i in 0..edges_to_add` loop of `add_edges_to_random_node`: one
new default edge per unconnected target, inserting the (0-based) pair and
bumping the added-edges counter. -/
def addBatch (target : Nat) :
    List Nat → List Edge → List (Nat × Nat) → Nat → Rng →
    List Edge × List (Nat × Nat) × Nat × Rng
  | [], edges, pairs, counter, rng => (edges, pairs, counter, rng)
  | i :: rest, edges, pairs, counter, rng =>
    let r := default_edge target i rng
    addBatch target rest (edges ++ [r.1]) (insertPair pairs (target, i)) (counter + 1) r.2

/-- The `while tries < max_tries` loop of `add_edges_to_random_node`.
Faithful quirk of the source: candidate end nodes are those `i` with
`(target, i + 1)` absent from the pair set, although pairs are stored with
0-based indices and only that single orientation is consulted.  The fuel
equals `max_tries - tries` at every call, so fuel 0 coincides with the
loop guard failing. -/
def growLoop (nodes : List Node) (available : List Nat) (prior num_edges max_tries : Nat) :
    Nat → Nat → List Edge → List (Nat × Nat) → Nat → Rng →
    List Edge × List (Nat × Nat) × Nat × Rng
  | 0, _tries, edges, pairs, counter, rng => (edges, pairs, counter, rng)
  | fuel + 1, tries, edges, pairs, counter, rng =>
    if tries < max_tries then
      let u := nextUsize rng
      let target := available.getD (u.1 % available.length) 0
      let unconnected := (List.range nodes.length).filter
        (fun i => !(pairs.contains (target, i + 1)))
      let edges_to_add := min num_edges unconnected.length
      if edges_to_add = 0 then
        growLoop nodes available prior num_edges max_tries fuel (tries + 1)
          edges pairs counter u.2
      else
        let b := addBatch target (unconnected.take edges_to_add) edges pairs counter u.2
        if b.1.length = prior then
          growLoop nodes available prior num_edges max_tries fuel (tries + 1)
            b.1 b.2.1 b.2.2.1 b.2.2.2
        else
          b
    else (edges, pairs, counter, rng)

/-- `MorassWeb::add_edges_to_random_node` with the loop fuel made explicit
(the public entry point below fixes the fuel to `max_tries`, which is
exactly the iteration bound of the source loop). -/
def add_edges_fueled (w : MorassWeb) (num_edges max_tries fuel : Nat) (rng : Rng) :
    MorassWeb × Rng :=
  let prior := w.edges.length
  let arr_count := outDegreeCounts w
  let available := (List.range w.nodes.length).filter
    (fun i => decide (arr_count.getD i 0 < w.nodes.length - 1))
  if available.length = 0 then (w, rng)
  else
    let r := growLoop w.nodes available prior num_edges max_tries fuel 0
      w.edges w.pairs w.edges_added_counter rng
    ({ w with edges := r.1, pairs := r.2.1, edges_added_counter := r.2.2.1 }, r.2.2.2)

/-- `MorassWeb::add_edges_to_random_node`. -/
def add_edges_to_random_node (w : MorassWeb) (num_edges max_tries : Nat) (rng : Rng) :
    MorassWeb × Rng :=
  add_edges_fueled w num_edges max_tries max_tries rng

end Morass

namespace Morass

/-- Constant random oracle used by concrete growth scenarios. -/
def rng0 : Rng :=
  { usizes := fun _ => 0, floats := fun _ => 1 / 2, uPos := 0, fPos := 0 }

/-- Node A of the spec's two-node example scenario: charge 10, threshold 5,
consumption 10 percent plus 1, decay 10 percent plus 1/2, off cooldown. -/
def nodeA : Node :=
  { id := 1, threshold := 5, charge := 10, cooldown := 3, cooldown_remaining := 0,
    since_last_fire := 0, charge_consumption_percentage := 1 / 10,
    charge_consumption_fixed := 1, decay_percentage := 1 / 10, decay_fixed := 1 / 2 }

/-- Node B of the example scenario: charge 0, threshold 5, same decay. -/
def nodeB : Node :=
  { id := 2, threshold := 5, charge := 0, cooldown := 2, cooldown_remaining := 0,
    since_last_fire := 0, charge_consumption_percentage := 1 / 10,
    charge_consumption_fixed := 1, decay_percentage := 1 / 10, decay_fixed := 1 / 2 }

/-- The edge A to B of the example scenario: out_percentage 1, out_fixed 0,
default health and windows. -/
def edgeAB : Edge :=
  { out_percentage := 1, out_fixed := 0, edge_health := 3, last_fire := 0,
    fire_within := 5, end_node_fire_within := 3, start_node := 0, end_node := 1 }

/-- The two-node example web of the spec (claim C1). -/
def webC1 : MorassWeb :=
  { nodes := [nodeA, nodeB], edges := [edgeAB],
    node_temp_charges := [0, 0], node_last_fired := [0, 0],
    pairs := [(0, 1)], op_counter := 0, edges_added_counter := 0 }

/-- A node that never fires: charge 0 below threshold 5, no decay. -/
def nodeQuiet (i : Nat) : Node :=
  { id := i + 1, threshold := 5, charge := 0, cooldown := 1, cooldown_remaining := 0,
    since_last_fire := 0, charge_consumption_percentage := 0,
    charge_consumption_fixed := 0, decay_percentage := 0, decay_fixed := 0 }

/-- Web for the pair-index pruning scenario: one edge whose health is 1 and
whose fire window is 1, between two quiet nodes, with its pair indexed. -/
def webC3 : MorassWeb :=
  { nodes := [nodeQuiet 0, nodeQuiet 1],
    edges := [{ out_percentage := 1, out_fixed := 0, edge_health := 1, last_fire := 0,
                fire_within := 1, end_node_fire_within := 3,
                start_node := 0, end_node := 1 }],
    node_temp_charges := [0, 0], node_last_fired := [0, 0],
    pairs := [(0, 1)], op_counter := 0, edges_added_counter := 0 }

/-- Web for the growth claims: two quiet nodes and no edges. -/
def webC4 : MorassWeb :=
  { nodes := [nodeQuiet 0, nodeQuiet 1], edges := [],
    node_temp_charges := [0, 0], node_last_fired := [0, 0],
    pairs := [], op_counter := 0, edges_added_counter := 0 }

/-- Fully connected two-node web: the single unordered pair is present. -/
def webC6 : MorassWeb :=
  { nodes := [nodeQuiet 0, nodeQuiet 1],
    edges := [{ out_percentage := 1, out_fixed := 0, edge_health := 3, last_fire := 0,
                fire_within := 5, end_node_fire_within := 3,
                start_node := 0, end_node := 1 }],
    node_temp_charges := [0, 0], node_last_fired := [0, 0],
    pairs := [(0, 1)], op_counter := 0, edges_added_counter := 0 }

/-- Oracle for the bootstrap-exhaustion scenario: the fourth usize draw is 1
(so the first candidate pair is (0, 1)), every other draw is 0. -/
def rngC5 : Rng :=
  { usizes := fun n => if n = 3 then 1 else 0, floats := fun _ => 1 / 2,
    uPos := 0, fPos := 0 }

/-- Single-node web whose node starts with a positive cooldown counter. -/
def webC2 : MorassWeb :=
  { nodes := [{ nodeQuiet 0 with cooldown_remaining := 2 }], edges := [],
    node_temp_charges := [0], node_last_fired := [0],
    pairs := [], op_counter := 0, edges_added_counter := 0 }

/-- The state of the webC6 edge after one step: its fire counter advanced. -/
def edgeC7 : Edge :=
  { out_percentage := 1, out_fixed := 0, edge_health := 3, last_fire := 1,
    fire_within := 5, end_node_fire_within := 3, start_node := 0, end_node := 1 }

lemma subtract_charge_cooldown_remaining (n : Node) :
    (subtract_charge n).cooldown_remaining = n.cooldown_remaining := by
  unfold subtract_charge; split_ifs <;> rfl

lemma subtract_charge_since_last_fire (n : Node) :
    (subtract_charge n).since_last_fire = n.since_last_fire := by
  unfold subtract_charge; split_ifs <;> rfl

lemma decay_cooldown_remaining (n : Node) :
    (decay n).cooldown_remaining = n.cooldown_remaining := rfl

lemma decay_since_last_fire (n : Node) :
    (decay n).since_last_fire = n.since_last_fire := rfl

lemma assimilate_cooldown_remaining (tc : List ℚ) (n : Node) :
    ((assimilate tc n).1).cooldown_remaining = n.cooldown_remaining := rfl

lemma assimilate_since_last_fire (tc : List ℚ) (n : Node) :
    ((assimilate tc n).1).since_last_fire = n.since_last_fire := rfl

lemma cooldown_step_cooldown_remaining (n : Node) :
    (cooldown_step n).cooldown_remaining = n.cooldown_remaining - 1 := by
  unfold cooldown_step; split_ifs with h
  · rfl
  · omega

lemma cooldown_step_since_last_fire (n : Node) :
    (cooldown_step n).since_last_fire = n.since_last_fire := by
  unfold cooldown_step; split_ifs <;> rfl

lemma stepNodes_length (ns : List Node) (tc : List ℚ) :
    ((stepNodes ns tc).1).length = ns.length := by
  induction ns generalizing tc with
  | nil => rfl
  | cons n ns ih => simp [stepNodes, ih]

lemma stepNodes_cooldown_getD (ns : List Node) (tc : List ℚ) (i : Nat)
    (hi : i < ns.length) :
    (((stepNodes ns tc).1).getD i defaultNode).cooldown_remaining
      = (ns.getD i defaultNode).cooldown_remaining - 1 := by
  induction ns generalizing tc i with
  | nil => simp at hi
  | cons n ns ih =>
    cases i with
    | zero =>
      simp only [stepNodes, List.getD_cons_zero]
      rw [cooldown_step_cooldown_remaining, assimilate_cooldown_remaining,
        decay_cooldown_remaining, subtract_charge_cooldown_remaining]
    | succ i =>
      simp only [stepNodes, List.getD_cons_succ]
      exact ih _ i (by simpa using hi)

lemma stepNodes_cooldown_zero (ns : List Node) (tc : List ℚ)
    (h : ∀ n ∈ ns, n.cooldown_remaining = 0) :
    ∀ n ∈ (stepNodes ns tc).1, n.cooldown_remaining = 0 := by
  induction ns generalizing tc with
  | nil => simp [stepNodes]
  | cons n ns ih =>
    simp only [stepNodes, List.mem_cons]
    rintro m (rfl | hm)
    · rw [cooldown_step_cooldown_remaining, assimilate_cooldown_remaining,
        decay_cooldown_remaining, subtract_charge_cooldown_remaining,
        h n (List.mem_cons_self n ns)]
    · exact ih _ (fun x hx => h x (List.mem_cons_of_mem n hx)) m hm

lemma stepNodes_since_map (ns : List Node) (tc : List ℚ) :
    ((stepNodes ns tc).1).map Node.since_last_fire = ns.map Node.since_last_fire := by
  induction ns generalizing tc with
  | nil => rfl
  | cons n ns ih =>
    simp only [stepNodes, List.map_cons, ih]
    rw [cooldown_step_since_last_fire, assimilate_since_last_fire,
      decay_since_last_fire, subtract_charge_since_last_fire]

lemma getD_cooldown_zero (ns : List Node)
    (h : ∀ n ∈ ns, n.cooldown_remaining = 0) (i : Nat) :
    (ns.getD i defaultNode).cooldown_remaining = 0 := by
  by_cases hi : i < ns.length
  · rw [List.getD_eq_getElem ns defaultNode hi]
    exact h _ (List.getElem_mem hi)
  · rw [List.getD_eq_default ns defaultNode (Nat.le_of_not_lt hi)]
    rfl

lemma step_nodes_eq (w : MorassWeb) :
    (step w).nodes = (stepNodes w.nodes
      (stepPulses w.nodes w.edges w.node_temp_charges w.node_last_fired 0).2.1).1 := rfl

/-- C2 counterexample input: in the two-node example web node A fires (the
op counter rises to 1) and A has configured cooldown 3, yet after the tick
A's cooldown_remaining is still 0 rather than the configured cooldown (under
the claim it would be 3 at the end of the propagate phase and hence 2 after
the cooldown decrement, never 0). -/
theorem C2_counterexample :
    (step webC1).op_counter = 1 ∧
    (webC1.nodes.getD 0 defaultNode).cooldown = 3 ∧
    ((step webC1).nodes.getD 0 defaultNode).cooldown_remaining = 0 := by
  refine ⟨?_, by decide, ?_⟩
  · norm_num [step, stepPulses, pulse, pulseValue, stepNodes, subtract_charge, decay,
      assimilate, cooldown_step, penalise, webC1, nodeA, nodeB, edgeAB, defaultNode]
  · norm_num [step, stepPulses, pulse, pulseValue, stepNodes, subtract_charge, decay,
      assimilate, cooldown_step, penalise, webC1, nodeA, nodeB, edgeAB, defaultNode]

/-- C2 amended: firing never arms the cooldown.  No phase of `step` ever
assigns `cooldown_remaining` a nonzero value; the only write anywhere in a
tick is the cooldown phase, which saturates a decrement, so across a step
every node's `cooldown_remaining` drops by exactly one (floored at zero). -/
theorem C2_cooldown_never_set (w : MorassWeb) (i : Nat) (hi : i < w.nodes.length) :
    ((step w).nodes.getD i defaultNode).cooldown_remaining
      = (w.nodes.getD i defaultNode).cooldown_remaining - 1 := by
  rw [step_nodes_eq]
  exact stepNodes_cooldown_getD w.nodes _ i hi

theorem C2_witness :
    0 < webC2.nodes.length ∧
    ((step webC2).nodes.getD 0 defaultNode).cooldown_remaining
      = (webC2.nodes.getD 0 defaultNode).cooldown_remaining - 1 :=
  ⟨by decide, C2_cooldown_never_set webC2 0 (by decide)⟩

/-- C3 counterexample input: a two-node web whose only edge reaches health
0 in this tick (its fire window is 1 and its start node cannot fire).  After
`step` the edge is gone from the edge store, yet its pair (0, 1) is still in
the pair index, so the pair index does not hold one pair per surviving edge
and health pruning deleted no pair. -/
theorem C3_counterexample :
    (step webC3).edges = [] ∧ (step webC3).pairs = [(0, 1)] := by
  exact ⟨by decide, by decide⟩

/-- C3 amended: pair-index removal during `step` is governed solely by the
endpoint cooldown counters, not by edge health: a pair survives the tick
exactly when it was present before and both endpoint nodes end the tick
with `cooldown_remaining` 0.  Edges pruned for zero health do not get their
pairs deleted. -/
theorem C3_pairs_cooldown_retain (w : MorassWeb) (p : Nat × Nat) :
    p ∈ (step w).pairs ↔
      p ∈ w.pairs ∧
        ((step w).nodes.getD p.1 defaultNode).cooldown_remaining = 0 ∧
        ((step w).nodes.getD p.2 defaultNode).cooldown_remaining = 0 := by
  simp only [step, List.mem_filter, Bool.and_eq_true, decide_eq_true_eq, Nat.le_zero,
    and_assoc]

/-- C7: edge health is monotone with a floor at zero and dead edges are
pruned: `penalise` lowers `edge_health` by at most 2 and never raises it,
the propagate phase never changes `edge_health`, and every edge still in
the store when `step` returns has strictly positive health. -/
theorem C7_health_monotone_and_pruned :
    (∀ (nodes : List Node) (e : Edge),
        (penalise nodes e).edge_health ≤ e.edge_health ∧
        e.edge_health - 2 ≤ (penalise nodes e).edge_health) ∧
    (∀ (nodes : List Node) (tc : List ℚ) (lf : List Nat) (e : Edge),
        ((pulse nodes tc lf e).2.2.2).edge_health = e.edge_health) ∧
    (∀ (w : MorassWeb) (e : Edge), e ∈ (step w).edges → 0 < e.edge_health) := by
  refine ⟨?_, ?_, ?_⟩
  · intro nodes e
    unfold penalise
    dsimp only
    split_ifs <;> constructor <;> omega
  · intro nodes tc lf e
    unfold pulse
    dsimp only
    split_ifs <;> rfl
  · intro w e he
    simp only [step, List.mem_filter, decide_eq_true_eq] at he
    exact he.2

theorem C7_witness : edgeC7 ∈ (step webC6).edges ∧ 0 < edgeC7.edge_health :=
  ⟨by decide, C7_health_monotone_and_pruned.2.2 webC6 edgeC7 (by decide)⟩

lemma growLoop_fuel_irrel (nodes : List Node) (available : List Nat)
    (prior ne mt : Nat) :
    ∀ (f1 f2 tries : Nat) (edges : List Edge) (pairs : List (Nat × Nat))
      (counter : Nat) (rng : Rng), mt ≤ tries + f1 → mt ≤ tries + f2 →
      growLoop nodes available prior ne mt f1 tries edges pairs counter rng
        = growLoop nodes available prior ne mt f2 tries edges pairs counter rng := by
  intro f1
  induction f1 with
  | zero =>
    intro f2 tries edges pairs counter rng h1 h2
    cases f2 with
    | zero => rfl
    | succ f2 =>
      have hng : ¬ tries < mt := by omega
      simp [growLoop, hng]
  | succ f1 ih =>
    intro f2 tries edges pairs counter rng h1 h2
    cases f2 with
    | zero =>
      have hng : ¬ tries < mt := by omega
      simp [growLoop, hng]
    | succ f2 =>
      by_cases hlt : tries < mt
      · simp only [growLoop, hlt, if_true]
        split
        · exact ih f2 (tries + 1) _ _ _ _ (by omega) (by omega)
        · split
          · exact ih f2 (tries + 1) _ _ _ _ (by omega) (by omega)
          · rfl
      · simp [growLoop, hlt]

/-- C8: the growth loop terminates within its budget: running
`add_edges_to_random_node` with any extra fuel beyond `max_tries` yields the
same outcome, i.e. the `while tries < max_tries` loop always finishes after
at most `max_tries` failed attempts or at the first successful batch. -/
theorem C8_growth_terminates (w : MorassWeb) (num_edges max_tries : Nat)
    (rng : Rng) (k : Nat) :
    add_edges_fueled w num_edges max_tries (max_tries + k) rng
      = add_edges_to_random_node w num_edges max_tries rng := by
  simp only [add_edges_to_random_node, add_edges_fueled]
  split
  · rfl
  · rw [growLoop_fuel_irrel w.nodes
      ((List.range w.nodes.length).filter
        (fun i => decide ((outDegreeCounts w).getD i 0 < w.nodes.length - 1)))
      w.edges.length num_edges max_tries (max_tries + k) max_tries 0
      w.edges w.pairs w.edges_added_counter rng (by omega) (by omega)]

/-- C1: the two-node example scenario evaluated on the code.  The edge does
fire with pulse 10 and B's temp charge is 10 before assimilation, and B
ends at its decayed charge plus 10 (19/2 here), as the claim says.  But the
propagate phase also adds the pulse to A's own temp charge (both cells read
[10, 10] after the propagate phase), so A's final charge is its consumed and
then decayed charge 67/10 PLUS the full pulse 10, i.e. 167/10, refuting the
part of the claim that says A's own charge receives no part of the pulse. -/
theorem C1_pulse_reaches_start_node :
    (stepPulses webC1.nodes webC1.edges webC1.node_temp_charges webC1.node_last_fired 0).2.1
      = [10, 10] ∧
    (step webC1).op_counter = 1 ∧
    ((step webC1).nodes.getD 1 defaultNode).charge = 19 / 2 ∧
    ((step webC1).nodes.getD 0 defaultNode).charge = 167 / 10 ∧
    ((step webC1).nodes.getD 0 defaultNode).charge ≠ 67 / 10 := by
  have hA : ((step webC1).nodes.getD 0 defaultNode).charge = 167 / 10 := by
    norm_num [step, stepPulses, pulse, pulseValue, stepNodes, subtract_charge, decay,
      assimilate, cooldown_step, penalise, webC1, nodeA, nodeB, edgeAB, defaultNode]
  refine ⟨?_, ?_, ?_, hA, by rw [hA]; norm_num⟩
  · norm_num [stepPulses, pulse, pulseValue, webC1, nodeA, nodeB, edgeAB, defaultNode]
  · norm_num [step, stepPulses, pulse, pulseValue, stepNodes, subtract_charge, decay,
      assimilate, cooldown_step, penalise, webC1, nodeA, nodeB, edgeAB, defaultNode]
  · norm_num [step, stepPulses, pulse, pulseValue, stepNodes, subtract_charge, decay,
      assimilate, cooldown_step, penalise, webC1, nodeA, nodeB, edgeAB, defaultNode]

/-- C4: growth violates pair uniqueness and the no-self-loop rule.  From a
two-node web with no edges (so pair uniqueness holds trivially), a single
grow call targeting node 0 creates the self-loop edge 0 to 0 and records the
degenerate pair (0, 0) in the pair index, because the membership probe uses
`(target, i + 1)` while pairs are stored with 0-based indices. -/
theorem C4_growth_creates_self_loop :
    webC4.pairs = [] ∧
    ((add_edges_to_random_node webC4 2 10 rng0).1).edges.map
        (fun e => (e.start_node, e.end_node)) = [(0, 0), (0, 1)] ∧
    ((add_edges_to_random_node webC4 2 10 rng0).1).pairs = [(0, 0), (0, 1)] := by
  exact ⟨by decide, by decide, by decide⟩

set_option maxRecDepth 40000 in
/-- C5 counterexample: on the exhaustion path the edge count does not equal
the number of pairs found.  With two nodes and a request for two edges the
second pair can never exist, the retry budget runs out, and the function
returns a web holding the one found pair but zero edges: the early return
fires before the edge-construction loop. -/
theorem C5_counterexample :
    (make_random_web 2 2 rngC5).edges.length = 0 ∧
    (make_random_web 2 2 rngC5).pairs.length = 1 ∧
    (make_random_web 2 2 rngC5).edges.length ≠ (make_random_web 2 2 rngC5).pairs.length := by
  have h1 : (make_random_web 2 2 rngC5).edges.length = 0 := by decide
  have h2 : (make_random_web 2 2 rngC5).pairs.length = 1 := by decide
  exact ⟨h1, h2, by rw [h1, h2]; decide⟩

/-- C5 amended: when the pair search exhausts its retry budget,
`make_random_web` still returns a graph (not an error), whose pair index
holds exactly the pairs found so far but whose edge store is empty, since
the early return precedes the edge-construction loop. -/
theorem C5_exhaustion_returns_empty_edges (num_nodes num_edges : Nat) (rng : Rng)
    (h : (buildPairs num_nodes num_edges [] 0 (buildNodesAux num_nodes 0 rng).2).2.1 = true) :
    (make_random_web num_nodes num_edges rng).edges = [] ∧
    (make_random_web num_nodes num_edges rng).pairs
      = (buildPairs num_nodes num_edges [] 0 (buildNodesAux num_nodes 0 rng).2).1 := by
  refine ⟨?_, ?_⟩ <;> simp [make_random_web, h]

set_option maxRecDepth 40000 in
theorem C5_witness :
    (make_random_web 2 2 rngC5).edges = [] ∧
    (make_random_web 2 2 rngC5).pairs
      = (buildPairs 2 2 [] 0 (buildNodesAux 2 0 rngC5).2).1 :=
  C5_exhaustion_returns_empty_edges 2 2 rngC5 (by decide)

/-- C6: growth on a fully connected graph is not a no-op.  On a two-node
web whose single unordered pair (0, 1) is already connected, a grow call
adds the reverse-duplicate edge 1 to 0 and inserts (1, 0) into the pair
index, raising the edge count from 1 to 2, because the membership probe
checks only the orientation `(target, i + 1)`. -/
theorem C6_growth_on_saturated_not_noop :
    webC6.pairs = [(0, 1)] ∧
    webC6.edges.length = 1 ∧
    ((add_edges_to_random_node webC6 1 10 rng0).1).edges.length = 2 ∧
    ((add_edges_to_random_node webC6 1 10 rng0).1).pairs = [(0, 1), (1, 0)] := by
  exact ⟨by decide, by decide, by decide, by decide⟩

lemma buildNode_cooldown_remaining (start : Nat) (rng : Rng) :
    ((buildNode start rng).1).cooldown_remaining = 0 := rfl

lemma buildNode_since_last_fire (start : Nat) (rng : Rng) :
    ((buildNode start rng).1).since_last_fire = 0 := rfl

lemma buildNodesAux_fields (count : Nat) :
    ∀ (start : Nat) (rng : Rng), ∀ n ∈ (buildNodesAux count start rng).1,
      n.cooldown_remaining = 0 ∧ n.since_last_fire = 0 := by
  induction count with
  | zero => intro start rng n hn; simp [buildNodesAux] at hn
  | succ c ih =>
    intro start rng n hn
    simp only [buildNodesAux, List.mem_cons] at hn
    rcases hn with rfl | hn
    · exact ⟨buildNode_cooldown_remaining start rng, buildNode_since_last_fire start rng⟩
    · exact ih (start + 1) _ n hn

lemma make_random_web_nodes (nn ne : Nat) (rng : Rng) :
    (make_random_web nn ne rng).nodes = (buildNodesAux nn 0 rng).1 := by
  simp only [make_random_web]
  split <;> rfl

lemma add_edges_fueled_nodes (w : MorassWeb) (ne mt f : Nat) (rng : Rng) :
    ((add_edges_fueled w ne mt f rng).1).nodes = w.nodes := by
  simp only [add_edges_fueled]
  split <;> rfl

lemma step_pairs_eq (w : MorassWeb) :
    (step w).pairs = w.pairs.filter (fun p =>
      decide ((((stepNodes w.nodes
          (stepPulses w.nodes w.edges w.node_temp_charges w.node_last_fired 0).2.1).1).getD
            p.1 defaultNode).cooldown_remaining ≤ 0) &&
      decide ((((stepNodes w.nodes
          (stepPulses w.nodes w.edges w.node_temp_charges w.node_last_fired 0).2.1).1).getD
            p.2 defaultNode).cooldown_remaining ≤ 0)) := rfl

/-- C9: `cooldown_remaining` is 0 on every node of a freshly built web and
no operation ever makes it nonzero: `step` preserves the all-zero state (and
then the cooldown-based retain over the pair index removes nothing), growth
does not touch the node store at all, injection preserves it, the cooldown
gate in the propagate phase never suppresses an edge (the fired flag is
exactly the positivity of the computed pulse), and the consume phase never
skips a node (the charge update depends only on the threshold test). -/
theorem C9_cooldown_remaining_always_zero :
    (∀ (nn ne : Nat) (rng : Rng), ∀ n ∈ (make_random_web nn ne rng).nodes,
        n.cooldown_remaining = 0) ∧
    (∀ w : MorassWeb, (∀ n ∈ w.nodes, n.cooldown_remaining = 0) →
        (∀ n ∈ (step w).nodes, n.cooldown_remaining = 0) ∧ (step w).pairs = w.pairs) ∧
    (∀ (w : MorassWeb) (ne mt : Nat) (rng : Rng),
        ((add_edges_to_random_node w ne mt rng).1).nodes = w.nodes) ∧
    (∀ (w : MorassWeb) (i : Nat) (x : ℚ), (∀ n ∈ w.nodes, n.cooldown_remaining = 0) →
        ∀ n ∈ (inject_node_index w i x).nodes, n.cooldown_remaining = 0) ∧
    (∀ (nodes : List Node) (tc : List ℚ) (lf : List Nat) (e : Edge),
        (∀ n ∈ nodes, n.cooldown_remaining = 0) →
        (pulse nodes tc lf e).1 = decide (0 < pulseValue nodes e)) ∧
    (∀ n : Node, n.cooldown_remaining = 0 →
        (subtract_charge n).charge =
          if n.threshold ≤ n.charge then
            n.charge - n.charge * n.charge_consumption_percentage
              - n.charge_consumption_fixed
          else n.charge) := by
  refine ⟨?_, ?_, ?_, ?_, ?_, ?_⟩
  · intro nn ne rng n hn
    rw [make_random_web_nodes] at hn
    exact (buildNodesAux_fields nn 0 rng n hn).1
  · intro w hw
    refine ⟨?_, ?_⟩
    · rw [step_nodes_eq]
      exact stepNodes_cooldown_zero w.nodes _ hw
    · rw [step_pairs_eq]
      apply List.filter_eq_self.mpr
      intro p _hp
      have hall := stepNodes_cooldown_zero w.nodes
        (stepPulses w.nodes w.edges w.node_temp_charges w.node_last_fired 0).2.1 hw
      have h1 := getD_cooldown_zero _ hall p.1
      have h2 := getD_cooldown_zero _ hall p.2
      simp only [Bool.and_eq_true, decide_eq_true_eq, Nat.le_zero]
      exact ⟨h1, h2⟩
  · intro w ne mt rng
    exact add_edges_fueled_nodes w ne mt mt rng
  · intro w i x hw n hn
    unfold inject_node_index at hn
    simp only at hn
    rcases List.mem_or_eq_of_mem_set hn with h | rfl
    · exact hw n h
    · exact getD_cooldown_zero w.nodes hw i
  · intro nodes tc lf e h
    have h0 : (nodes.getD e.start_node defaultNode).cooldown_remaining = 0 :=
      getD_cooldown_zero nodes h e.start_node
    unfold pulse
    simp only [h0, lt_irrefl, if_false]
    split_ifs with hp <;> simp [hp]
  · intro n h
    unfold subtract_charge
    rw [if_pos (by omega)]
    split_ifs <;> rfl

theorem C9_witness :
    (∀ n ∈ (step webC6).nodes, n.cooldown_remaining = 0) ∧
    (step webC6).pairs = webC6.pairs :=
  C9_cooldown_remaining_always_zero.2.1 webC6 (by decide)

lemma getD_since_zero (ns : List Node)
    (h : ∀ n ∈ ns, n.since_last_fire = 0) (i : Nat) :
    (ns.getD i defaultNode).since_last_fire = 0 := by
  by_cases hi : i < ns.length
  · rw [List.getD_eq_getElem ns defaultNode hi]
    exact h _ (List.getElem_mem hi)
  · rw [List.getD_eq_default ns defaultNode (Nat.le_of_not_lt hi)]
    rfl

/-- C10: `since_last_fire` is 0 on every node of a freshly built web and no
operation ever writes it: a step leaves every node's value unchanged (firing
zeroes cells of the separate `node_last_fired` vector instead), growth does
not touch the node store, injection preserves it, every edge made by
`default_edge` carries `end_node_fire_within` 3, and whenever the
destination's `since_last_fire` differs from `end_node_fire_within` (as 0
differs from 3) the destination-staleness penalty of `penalise` does not
apply: the health depends only on the edge's own fire-window test. -/
theorem C10_since_last_fire_never_written :
    (∀ (nn ne : Nat) (rng : Rng), ∀ n ∈ (make_random_web nn ne rng).nodes,
        n.since_last_fire = 0) ∧
    (∀ w : MorassWeb, ((step w).nodes).map Node.since_last_fire
        = w.nodes.map Node.since_last_fire) ∧
    (∀ (w : MorassWeb) (ne mt : Nat) (rng : Rng),
        ((add_edges_to_random_node w ne mt rng).1).nodes.map Node.since_last_fire
          = w.nodes.map Node.since_last_fire) ∧
    (∀ (w : MorassWeb) (i : Nat) (x : ℚ), (∀ n ∈ w.nodes, n.since_last_fire = 0) →
        ∀ n ∈ (inject_node_index w i x).nodes, n.since_last_fire = 0) ∧
    (∀ (s e : Nat) (rng : Rng), ((default_edge s e rng).1).end_node_fire_within = 3) ∧
    (∀ (nodes : List Node) (e : Edge),
        (nodes.getD e.end_node defaultNode).since_last_fire ≠ e.end_node_fire_within →
        (penalise nodes e).edge_health =
          if e.last_fire % e.fire_within = e.fire_within - 1
          then max e.edge_health 1 - 1 else e.edge_health) := by
  refine ⟨?_, ?_, ?_, ?_, ?_, ?_⟩
  · intro nn ne rng n hn
    rw [make_random_web_nodes] at hn
    exact (buildNodesAux_fields nn 0 rng n hn).2
  · intro w
    rw [step_nodes_eq]
    exact stepNodes_since_map w.nodes _
  · intro w ne mt rng
    unfold add_edges_to_random_node
    rw [add_edges_fueled_nodes w ne mt mt rng]
  · intro w i x hw n hn
    unfold inject_node_index at hn
    simp only at hn
    rcases List.mem_or_eq_of_mem_set hn with h | rfl
    · exact hw n h
    · exact getD_since_zero w.nodes hw i
  · intro s e rng
    rfl
  · intro nodes e h
    unfold penalise
    simp only [if_neg h]

theorem C10_witness :
    (penalise webC6.nodes edgeC7).edge_health =
      if edgeC7.last_fire % edgeC7.fire_within = edgeC7.fire_within - 1
      then max edgeC7.edge_health 1 - 1 else edgeC7.edge_health :=
  C10_since_last_fire_never_written.2.2.2.2.2 webC6.nodes edgeC7 (by decide)

end Morass
